import Mathlib

/-!
Verification of `homework2/homework/models.py`: four feed-forward classifier
variants, a model registry, a parameter-size utility, and save/load helpers.

The tensor engine is embedded shallowly: a tensor is a shape (list of
dimensions) together with flat rational data.  Elementwise GELU is the one
engine primitive whose scalar function is transcendental; it is carried as an
abstract function `g : ℚ → ℚ`, since every claim about the models is
independent of the particular scalar nonlinearity applied pointwise.
-/

set_option autoImplicit false

namespace Models

/-- A multi-dimensional array: a shape together with flat row-major data.
Rationals stand in for the engine's floating-point scalars. -/
structure Tensor where
  shape : List ℕ
  data : List ℚ
  deriving DecidableEq

/-- `x.view(x.size(0), -1)`: flatten all dimensions after the batch dimension.
Fails (engine error) when the tensor has no dimensions at all. -/
def Tensor.flattenFromDim1 (t : Tensor) : Option Tensor :=
  match t.shape with
  | [] => none
  | b :: rest => some ⟨[b, rest.prod], t.data⟩

/-- Elementwise application of a scalar function (shape preserved). -/
def Tensor.mapElem (f : ℚ → ℚ) (t : Tensor) : Tensor :=
  ⟨t.shape, t.data.map f⟩

/-- Elementwise addition; the call sites in `models.py` only ever add tensors
of identical shape, so broadcasting is not modelled and a shape mismatch is an
engine error. -/
def Tensor.add (a b : Tensor) : Option Tensor :=
  if a.shape = b.shape then
    some ⟨a.shape, (a.data.zip b.data).map (fun p => p.1 + p.2)⟩
  else none

/-- The scalar rectifier `max(0, x)` computed by `nn.ReLU`. -/
def reluQ (x : ℚ) : ℚ := max 0 x

/-- `nn.Linear(inFeatures, outFeatures)`: a weight matrix (indexed
row-then-column) and a bias vector. -/
structure LinearLayer where
  inFeatures : ℕ
  outFeatures : ℕ
  weight : ℕ → ℕ → ℚ
  bias : ℕ → ℚ

/-- Number of scalar elements in each parameter tensor of a linear layer:
the `outFeatures × inFeatures` weight matrix and the bias vector. -/
def LinearLayer.paramNumels (l : LinearLayer) : List ℕ :=
  [l.outFeatures * l.inFeatures, l.outFeatures]

/-- Apply an affine layer to a batched input of shape `[b, inFeatures]`
(the only shape the models feed it): row `i`, output `j` is
`bias j + ∑ k, weight j k * x i k`.  Any other shape is an engine error. -/
def LinearLayer.apply (l : LinearLayer) (t : Tensor) : Option Tensor :=
  match t.shape with
  | [b, k] =>
    if k = l.inFeatures then
      some ⟨[b, l.outFeatures],
        (List.range b).flatMap (fun i =>
          (List.range l.outFeatures).map (fun j =>
            l.bias j +
              ((List.range l.inFeatures).map (fun k2 =>
                l.weight j k2 * t.data.getD (i * l.inFeatures + k2) 0)).sum))⟩
    else none
  | _ => none

/-- The module kinds appearing inside an `nn.Sequential` in `models.py`. -/
inductive Layer where
  | linear (l : LinearLayer)
  | relu
  | gelu

/-- One module applied to a tensor; `g` interprets the scalar GELU function. -/
def Layer.apply (g : ℚ → ℚ) : Layer → Tensor → Option Tensor
  | .linear l, t => l.apply t
  | .relu, t => some (t.mapElem reluQ)
  | .gelu, t => some (t.mapElem g)

/-- Parameter element counts of a module (activations own no parameters). -/
def Layer.paramNumels : Layer → List ℕ
  | .linear l => l.paramNumels
  | .relu => []
  | .gelu => []

/-- `nn.Sequential`: apply the modules in order. -/
def seqForward (g : ℚ → ℚ) (layers : List Layer) (t : Tensor) : Option Tensor :=
  layers.foldlM (fun acc l => l.apply g acc) t

/-- Fresh random initialization of each `nn.Linear` a constructor creates:
the environment hands layer number `i` its weight matrix and bias vector. -/
structure WeightEnv where
  w : ℕ → ℕ → ℕ → ℚ
  b : ℕ → ℕ → ℚ

/-- `LinearClassifier`: a single affine map from the flattened image. -/
structure LinearClassifier where
  linear : LinearLayer

def LinearClassifier.init (env : WeightEnv) (h w numClasses : ℕ) :
    LinearClassifier :=
  let input_dim := 3 * h * w
  { linear := ⟨input_dim, numClasses, env.w 0, env.b 0⟩ }

def LinearClassifier.forward (m : LinearClassifier) (x : Tensor) :
    Option Tensor :=
  x.flattenFromDim1 >>= m.linear.apply

/-- `MLPClassifier`: one hidden layer of width 128 with a rectifier. -/
structure MLPClassifier where
  mlp : List Layer

def MLPClassifier.init (env : WeightEnv) (h w numClasses : ℕ) :
    MLPClassifier :=
  let input_dim := 3 * h * w
  let hidden_dim := 128
  { mlp := [.linear ⟨input_dim, hidden_dim, env.w 0, env.b 0⟩,
            .relu,
            .linear ⟨hidden_dim, numClasses, env.w 1, env.b 1⟩] }

def MLPClassifier.forward (g : ℚ → ℚ) (m : MLPClassifier) (x : Tensor) :
    Option Tensor :=
  x.flattenFromDim1 >>= seqForward g m.mlp

/-- `MLPClassifierDeep`: `[Linear, GELU]` then `num_layers - 2` appended
`[Linear, ReLU]` pairs then a final `Linear`, exactly as the constructor's
loop builds the list (hidden_dim = 170, num_layers = 16). -/
structure MLPClassifierDeep where
  mlp : List Layer

def MLPClassifierDeep.init (env : WeightEnv) (h w numClasses : ℕ) :
    MLPClassifierDeep :=
  let input_dim := 3 * h * w
  let hidden_dim := 170
  let num_layers := 16
  { mlp :=
      [Layer.linear ⟨input_dim, hidden_dim, env.w 0, env.b 0⟩, Layer.gelu]
      ++ (List.range (num_layers - 2)).flatMap (fun i =>
          [Layer.linear ⟨hidden_dim, hidden_dim, env.w (i + 1), env.b (i + 1)⟩,
           Layer.relu])
      ++ [Layer.linear ⟨hidden_dim, numClasses,
            env.w (num_layers - 1), env.b (num_layers - 1)⟩] }

def MLPClassifierDeep.forward (g : ℚ → ℚ) (m : MLPClassifierDeep)
    (x : Tensor) : Option Tensor :=
  x.flattenFromDim1 >>= seqForward g m.mlp

/-- `MLPClassifierDeepResidual`: an input affine layer, a `ModuleList` of
`num_layers - 2` blocks `Sequential(Linear, ReLU, Linear)` (hidden_dim = 180,
num_layers = 7), an output affine layer, and a ReLU activation. -/
structure MLPClassifierDeepResidual where
  input_layer : LinearLayer
  hidden_layers : List (List Layer)
  output_layer : LinearLayer

def MLPClassifierDeepResidual.init (env : WeightEnv) (h w numClasses : ℕ) :
    MLPClassifierDeepResidual :=
  let input_dim := 3 * h * w
  let hidden_dim := 180
  let num_layers := 7
  { input_layer := ⟨input_dim, hidden_dim, env.w 0, env.b 0⟩
    hidden_layers :=
      (List.range (num_layers - 2)).map (fun i =>
        [Layer.linear ⟨hidden_dim, hidden_dim,
            env.w (2 * i + 1), env.b (2 * i + 1)⟩,
         Layer.relu,
         Layer.linear ⟨hidden_dim, hidden_dim,
            env.w (2 * i + 2), env.b (2 * i + 2)⟩])
    output_layer := ⟨hidden_dim, numClasses,
      env.w (2 * num_layers - 3), env.b (2 * num_layers - 3)⟩ }

/-- The forward pass of the residual variant, following the source loop:
`residual = out; out = layer(out); out = activation(out + residual)`. -/
def MLPClassifierDeepResidual.forward (g : ℚ → ℚ)
    (m : MLPClassifierDeepResidual) (x : Tensor) : Option Tensor := do
  let xf ← x.flattenFromDim1
  let h0 ← m.input_layer.apply xf
  let out0 := h0.mapElem reluQ
  let outN ← m.hidden_layers.foldlM (fun out layer => do
      let o ← seqForward g layer out
      let s ← Tensor.add o out
      pure (s.mapElem reluQ)) out0
  m.output_layer.apply outN

/-- A constructed model instance: one of the four variants in `models.py`. -/
inductive Model where
  | linearC (m : LinearClassifier)
  | mlpC (m : MLPClassifier)
  | deepC (m : MLPClassifierDeep)
  | residC (m : MLPClassifierDeepResidual)

/-- Dispatch the forward pass over the variants. -/
def Model.forward (g : ℚ → ℚ) : Model → Tensor → Option Tensor
  | .linearC m, x => m.forward x
  | .mlpC m, x => MLPClassifier.forward g m x
  | .deepC m, x => MLPClassifierDeep.forward g m x
  | .residC m, x => MLPClassifierDeepResidual.forward g m x

/-- `model.parameters()` viewed as the element count of each parameter
tensor, in registration order. -/
def Model.parameters : Model → List ℕ
  | .linearC m => m.linear.paramNumels
  | .mlpC m => m.mlp.flatMap Layer.paramNumels
  | .deepC m => m.mlp.flatMap Layer.paramNumels
  | .residC m =>
      m.input_layer.paramNumels
      ++ m.hidden_layers.flatMap (fun blk => blk.flatMap Layer.paramNumels)
      ++ m.output_layer.paramNumels

/-- `calculate_model_size_mb`: total parameter elements, times 4 bytes,
divided twice by 1024.  For the magnitudes appearing here the Python float
arithmetic is exact (integers below 2^53 divided by powers of two), so ℚ is a
faithful carrier. -/
def calculate_model_size_mb (m : Model) : ℚ :=
  (m.parameters.sum : ℚ) * 4 / 1024 / 1024

/-- The Python classes declared in `models.py` (plus `nn.Module`).
`ClassificationLoss` is the module the file defines that is *not* in the
registry. -/
inductive PyClass where
  | nnModule
  | classificationLoss
  | linearClassifier
  | mlpClassifier
  | mlpClassifierDeep
  | mlpClassifierDeepResidual
  deriving DecidableEq

/-- The class and its base chain: every class in the file is declared
directly as `class X(nn.Module)`. -/
def PyClass.ancestors : PyClass → List PyClass
  | .nnModule => [.nnModule]
  | c => [c, .nnModule]

/-- `isinstance(obj, target)` for an object of class `c`. -/
def isinstance (c target : PyClass) : Bool :=
  decide (target ∈ c.ancestors)

/-- `str(type(model))`-style name used in `save_model`'s error message. -/
def PyClass.pyName : PyClass → String
  | .nnModule => "Module"
  | .classificationLoss => "ClassificationLoss"
  | .linearClassifier => "LinearClassifier"
  | .mlpClassifier => "MLPClassifier"
  | .mlpClassifierDeep => "MLPClassifierDeep"
  | .mlpClassifierDeepResidual => "MLPClassifierDeepResidual"

/-- A registry value: in Python the value *is* the class, used both as the
`isinstance` target in `save_model` and as the constructor in `load_model`
(called there with the default arguments h = 64, w = 64, num_classes = 6). -/
structure Ctor where
  cls : PyClass
  make : WeightEnv → Model

def linearCtor : Ctor :=
  ⟨.linearClassifier, fun env => .linearC (LinearClassifier.init env 64 64 6)⟩

def mlpCtor : Ctor :=
  ⟨.mlpClassifier, fun env => .mlpC (MLPClassifier.init env 64 64 6)⟩

def mlpDeepCtor : Ctor :=
  ⟨.mlpClassifierDeep, fun env => .deepC (MLPClassifierDeep.init env 64 64 6)⟩

def mlpDeepResidualCtor : Ctor :=
  ⟨.mlpClassifierDeepResidual,
   fun env => .residC (MLPClassifierDeepResidual.init env 64 64 6)⟩

/-- `model_factory`, a Python dict whose iteration order is its insertion
order, embedded as an association list. -/
def model_factory : List (String × Ctor) :=
  [("linear", linearCtor),
   ("mlp", mlpCtor),
   ("mlp_deep", mlpDeepCtor),
   ("mlp_deep_residual", mlpDeepResidualCtor)]

/-- The name-to-class view of the registry, which is all `save_model`
inspects. -/
def factoryClasses : List (String × PyClass) :=
  model_factory.map (fun p => (p.1, p.2.cls))

/-- `save_model` observed at the level of the instance's class: scan the
registry in iteration order for the first `isinstance` match and write
`<name>.th`; otherwise raise `ValueError` naming the type. -/
def save_model (cls : PyClass) : Except String String :=
  match model_factory.find? (fun p => isinstance cls p.2.cls) with
  | some p => .ok (p.1 ++ ".th")
  | none => .error ("Model type '" ++ cls.pyName ++ "' not supported")

/-- The world outside `load_model`.  `fileExists` is the filesystem test.

Modelled from the spec: `torch.load` followed by `Module.load_state_dict`
(the engine's deserialization, not part of this repository) either restores
the checkpoint's parameters into the model, yielding the loaded model, or
fails with a `RuntimeError` on a shape/key mismatch leaving no partial load
applied; `loadResult path r = some r2` is the successful outcome and `none`
the `RuntimeError`. -/
structure LoadEnv where
  fileExists : String → Bool
  loadResult : String → Model → Option Model

inductive LoadError where
  | keyError (name : String)
  | assertionError (msg : String)
  deriving DecidableEq

/-- The final lines of `load_model`: compute the size of the model that
survived the (optional) weight restore, raise the budget violation when it
exceeds 10 MB, otherwise report the size and return the model. -/
def sizeGate (name : String) (r : Model) : Except LoadError Model :=
  if calculate_model_size_mb r > 10 then
    .error (.assertionError (name ++ " is too large"))
  else .ok r

/-- `load_model(model_name, with_weights)` with default constructor
arguments: look the name up in the registry, construct, optionally restore
weights (asserting the checkpoint file exists and converting a loader
`RuntimeError` into an `AssertionError` naming the file), then enforce the
10 MB size budget before returning the model. -/
def load_model (env : WeightEnv) (fs : LoadEnv) (name : String)
    (withWeights : Bool) : Except LoadError Model :=
  match model_factory.find? (fun p => p.1 == name) with
  | none => .error (.keyError name)
  | some p =>
    let r := p.2.make env
    if withWeights then
      if fs.fileExists (name ++ ".th") then
        match fs.loadResult (name ++ ".th") r with
        | some r2 => sizeGate name r2
        | none => .error (.assertionError
            ("Failed to load " ++ name ++
             ".th, make sure the default model arguments are set correctly"))
      else .error (.assertionError (name ++ ".th not found"))
    else sizeGate name r

/-- `issubclass(c, d)` under the declared base chains. -/
def issubclass (c d : PyClass) : Bool :=
  decide (d ∈ c.ancestors)

/-- A deterministic weight environment (all parameters zero), standing in
for one concrete random initialization. -/
def zeroEnv : WeightEnv := ⟨fun _ _ _ => 0, fun _ _ => 0⟩

/-- A filesystem with no checkpoint files and a loader that always fails. -/
def emptyFs : LoadEnv := ⟨fun _ => false, fun _ _ => none⟩

/-- A filesystem where every checkpoint exists but deserialization always
raises the engine's shape-mismatch error. -/
def mismatchFs : LoadEnv := ⟨fun _ => true, fun _ _ => none⟩

set_option maxRecDepth 4000 in
theorem parameters_sum_linear (env : WeightEnv) :
    (linearCtor.make env).parameters.sum = 73734 := by
  norm_num [linearCtor, LinearClassifier.init, Model.parameters,
    LinearLayer.paramNumels]

set_option maxRecDepth 4000 in
theorem parameters_sum_mlp (env : WeightEnv) :
    (mlpCtor.make env).parameters.sum = 1573766 := by
  norm_num [mlpCtor, MLPClassifier.init, Model.parameters, Layer.paramNumels,
    LinearLayer.paramNumels]

set_option maxRecDepth 4000 in
theorem parameters_sum_deep (env : WeightEnv) :
    (mlpDeepCtor.make env).parameters.sum = 2497136 := by
  norm_num [mlpDeepCtor, MLPClassifierDeep.init, Model.parameters,
    Layer.paramNumels, LinearLayer.paramNumels, List.range_succ]

set_option maxRecDepth 4000 in
theorem parameters_sum_residual (env : WeightEnv) :
    (mlpDeepResidualCtor.make env).parameters.sum = 2538906 := by
  norm_num [mlpDeepResidualCtor, MLPClassifierDeepResidual.init, Model.parameters,
    Layer.paramNumels, LinearLayer.paramNumels, List.range_succ]

/-- C5: `calculate_model_size_mb` is the total parameter element count times
4 bytes, divided by 1024 twice. -/
theorem c5_model_size_formula (m : Model) :
    calculate_model_size_mb m = (m.parameters.sum : ℚ) * 4 / 1024 / 1024 := rfl

theorem sizeGate_eq_ok {name : String} {r m : Model} :
    sizeGate name r = Except.ok m ↔
      calculate_model_size_mb r ≤ 10 ∧ m = r := by
  unfold sizeGate
  split <;> rename_i hgt
  · simp [le_of_lt, not_le.mpr hgt]
  · simp [not_lt.mp hgt, eq_comm]

theorem size_mb_linear (env : WeightEnv) :
    calculate_model_size_mb (linearCtor.make env) = 294936 / 1048576 := by
  rw [calculate_model_size_mb, parameters_sum_linear]; norm_num

theorem size_mb_mlp (env : WeightEnv) :
    calculate_model_size_mb (mlpCtor.make env) = 6295064 / 1048576 := by
  rw [calculate_model_size_mb, parameters_sum_mlp]; norm_num

theorem size_mb_deep (env : WeightEnv) :
    calculate_model_size_mb (mlpDeepCtor.make env) = 9988544 / 1048576 := by
  rw [calculate_model_size_mb, parameters_sum_deep]; norm_num

theorem size_mb_residual (env : WeightEnv) :
    calculate_model_size_mb (mlpDeepResidualCtor.make env) = 10155624 / 1048576 := by
  rw [calculate_model_size_mb, parameters_sum_residual]; norm_num

theorem find_name_linear :
    model_factory.find? (fun q => q.1 == "linear") = some ("linear", linearCtor) := rfl

theorem find_name_mlp :
    model_factory.find? (fun q => q.1 == "mlp") = some ("mlp", mlpCtor) := rfl

theorem find_name_deep :
    model_factory.find? (fun q => q.1 == "mlp_deep") = some ("mlp_deep", mlpDeepCtor) := rfl

theorem find_name_residual :
    model_factory.find? (fun q => q.1 == "mlp_deep_residual") =
      some ("mlp_deep_residual", mlpDeepResidualCtor) := rfl

theorem load_model_no_weights (env : WeightEnv) (fs : LoadEnv) (name : String)
    (p : String × Ctor)
    (hfind : model_factory.find? (fun q => q.1 == name) = some p)
    (hsz : calculate_model_size_mb (p.2.make env) ≤ 10) :
    load_model env fs name false = Except.ok (p.2.make env) := by
  unfold load_model
  rw [hfind]
  simp [sizeGate, not_lt.mpr hsz]

/-- C6: every default-constructed registry model fits the 4-bytes-per-
parameter 10 MB budget, so `load_model` with default arguments returns it
without raising the budget-violation error. -/
theorem c6_registry_within_budget :
    ∀ p ∈ model_factory, ∀ (env : WeightEnv) (fs : LoadEnv),
      calculate_model_size_mb (p.2.make env) ≤ 10 ∧
      load_model env fs p.1 false = Except.ok (p.2.make env) := by
  intro p hp env fs
  simp only [model_factory, List.mem_cons, List.mem_singleton,
    List.not_mem_nil, or_false] at hp
  have hle10 : calculate_model_size_mb (p.2.make env) ≤ 10 := by
    rcases hp with rfl | rfl | rfl | rfl
    · rw [size_mb_linear]; norm_num
    · rw [size_mb_mlp]; norm_num
    · rw [size_mb_deep]; norm_num
    · rw [size_mb_residual]; norm_num
  refine ⟨hle10, ?_⟩
  rcases hp with rfl | rfl | rfl | rfl
  · exact load_model_no_weights env fs _ _ find_name_linear hle10
  · exact load_model_no_weights env fs _ _ find_name_mlp hle10
  · exact load_model_no_weights env fs _ _ find_name_deep hle10
  · exact load_model_no_weights env fs _ _ find_name_residual hle10

/-- C6 witness at the first registry entry with a concrete environment. -/
theorem c6_registry_within_budget_witness :
    calculate_model_size_mb (linearCtor.make zeroEnv) ≤ 10 ∧
      load_model zeroEnv emptyFs "linear" false =
        Except.ok (linearCtor.make zeroEnv) :=
  c6_registry_within_budget ("linear", linearCtor) (List.Mem.head _)
    zeroEnv emptyFs

/-- C3: for every registered name, `load_model` runs the constructed (and
possibly weight-restored) model through the size gate whichever value
`with_weights` has: it never returns a model above 10 MB, raises the budget
violation when the default-constructed model exceeds 10 MB, and otherwise
returns the model. -/
theorem c3_size_gate (env : WeightEnv) (fs : LoadEnv) (name : String)
    (p : String × Ctor)
    (hfind : model_factory.find? (fun q => q.1 == name) = some p) :
    (∀ (ww : Bool) (m : Model),
        load_model env fs name ww = Except.ok m →
        calculate_model_size_mb m ≤ 10)
    ∧ (calculate_model_size_mb (p.2.make env) > 10 →
        load_model env fs name false =
          Except.error (.assertionError (name ++ " is too large")))
    ∧ (calculate_model_size_mb (p.2.make env) ≤ 10 →
        load_model env fs name false = Except.ok (p.2.make env)) := by
  refine ⟨?_, ?_, ?_⟩
  · intro ww m h
    unfold load_model at h
    rw [hfind] at h
    cases ww with
    | false =>
      simp only [if_neg Bool.false_ne_true] at h
      exact (sizeGate_eq_ok.mp h).2 ▸ (sizeGate_eq_ok.mp h).1
    | true =>
      simp only [if_pos rfl] at h
      by_cases hfe : fs.fileExists (name ++ ".th")
      · rw [if_pos hfe] at h
        cases hlr : fs.loadResult (name ++ ".th") (p.2.make env) with
        | none => rw [hlr] at h; exact absurd h (by simp)
        | some r2 =>
          rw [hlr] at h
          exact (sizeGate_eq_ok.mp h).2 ▸ (sizeGate_eq_ok.mp h).1
      · rw [if_neg hfe] at h
        exact absurd h (by simp)
  · intro hgt
    unfold load_model
    rw [hfind]
    simp [sizeGate, hgt]
  · intro hle
    exact load_model_no_weights env fs name p hfind hle

/-- C3 witness: the linear model at a concrete environment passes the gate. -/
theorem c3_size_gate_witness :
    load_model zeroEnv emptyFs "linear" false =
      Except.ok (linearCtor.make zeroEnv) :=
  (c3_size_gate zeroEnv emptyFs "linear" ("linear", linearCtor)
      find_name_linear).2.2 (by rw [size_mb_linear]; norm_num)

/-- C7: when the checkpoint file exists but the engine's deserialization
fails with its shape/key-mismatch error, `load_model` re-raises a single
assertion-style failure naming the checkpoint file and suggesting a
default-argument mismatch, and returns no model. -/
theorem c7_load_failure_reraised (env : WeightEnv) (fs : LoadEnv)
    (name : String) (p : String × Ctor)
    (hfind : model_factory.find? (fun q => q.1 == name) = some p)
    (hfe : fs.fileExists (name ++ ".th") = true)
    (hlr : fs.loadResult (name ++ ".th") (p.2.make env) = none) :
    load_model env fs name true =
      Except.error (.assertionError
        ("Failed to load " ++ name ++
         ".th, make sure the default model arguments are set correctly")) := by
  unfold load_model
  rw [hfind]
  simp [hfe, hlr]

/-- C7 witness: concrete mismatching filesystem on the first registry name. -/
theorem c7_load_failure_reraised_witness :
    load_model zeroEnv mismatchFs "linear" true =
      Except.error (.assertionError
        ("Failed to load linear.th, make sure the default model arguments are set correctly")) :=
  c7_load_failure_reraised zeroEnv mismatchFs "linear" ("linear", linearCtor)
    find_name_linear rfl rfl

/-- C8: when weights are requested and the checkpoint file is absent,
`load_model` raises an assertion-style failure naming the missing file and
returns no (randomly initialized) model. -/
theorem c8_missing_checkpoint (env : WeightEnv) (fs : LoadEnv)
    (name : String) (p : String × Ctor)
    (hfind : model_factory.find? (fun q => q.1 == name) = some p)
    (hfe : fs.fileExists (name ++ ".th") = false) :
    load_model env fs name true =
      Except.error (.assertionError (name ++ ".th not found")) := by
  unfold load_model
  rw [hfind]
  simp [hfe]

/-- C8 witness: concrete empty filesystem on the first registry name. -/
theorem c8_missing_checkpoint_witness :
    load_model zeroEnv emptyFs "linear" true =
      Except.error (.assertionError "linear.th not found") :=
  c8_missing_checkpoint zeroEnv emptyFs "linear" ("linear", linearCtor)
    find_name_linear rfl

instance {ε α : Type} [DecidableEq ε] [DecidableEq α] :
    DecidableEq (Except ε α) := fun a b =>
  match a, b with
  | .error e, .error f =>
      if h : e = f then .isTrue (by rw [h])
      else .isFalse (fun hh => h (Except.error.inj hh))
  | .error _, .ok _ => .isFalse (fun hh => Except.noConfusion hh)
  | .ok _, .error _ => .isFalse (fun hh => Except.noConfusion hh)
  | .ok x, .ok y =>
      if h : x = y then .isTrue (by rw [h])
      else .isFalse (fun hh => h (Except.ok.inj hh))

theorem find?_of_perm_singleton {α : Type} (p : α → Bool) {l l' : List α}
    {a : α} (hperm : l.Perm l') (hf : l'.filter p = [a]) :
    l.find? p = some a := by
  have hmemf : a ∈ l'.filter p := by rw [hf]; exact List.mem_singleton_self a
  have hpa : p a = true := (List.mem_filter.mp hmemf).2
  have hmem : a ∈ l := hperm.mem_iff.mpr (List.mem_filter.mp hmemf).1
  have hsome : (l.find? p).isSome := List.find?_isSome.mpr ⟨a, hmem, hpa⟩
  obtain ⟨b, hb⟩ := Option.isSome_iff_exists.mp hsome
  have hbf : b ∈ l'.filter p :=
    List.mem_filter.mpr ⟨hperm.mem_iff.mp (List.mem_of_find?_eq_some hb),
      List.find?_some hb⟩
  rw [hf] at hbf
  rw [hb, List.mem_singleton.mp hbf]

theorem find?_of_perm_nil {α : Type} (p : α → Bool) {l l' : List α}
    (hperm : l.Perm l') (hf : l'.filter p = []) : l.find? p = none := by
  rw [List.find?_eq_none]
  intro x hx
  simpa using List.filter_eq_nil_iff.mp hf x (hperm.mem_iff.mp hx)

/-- C4: `save_model` raises the value error naming the model's type exactly
when the instance's class matches no registered variant, and otherwise
writes `<name>.th` for the first matching registry entry in iteration
order. -/
theorem c4_save_dispatch (cls : PyClass) :
    (save_model cls =
        Except.error ("Model type '" ++ cls.pyName ++ "' not supported") ↔
      ¬ ∃ p ∈ factoryClasses, isinstance cls p.2 = true)
    ∧ (save_model cls).toOption =
        (factoryClasses.find? (fun q => isinstance cls q.2)).map
          (fun q => q.1 ++ ".th") := by
  cases cls <;> exact ⟨by decide, by decide⟩

/-- C10: no registered variant class is a subclass of another, every class
matching some registry entry matches exactly one, and the registry name
`save_model` resolves is invariant under permuting the registry's iteration
order. -/
theorem c10_unique_dispatch :
    (∀ c ∈ factoryClasses.map Prod.snd, ∀ d ∈ factoryClasses.map Prod.snd,
        c ≠ d → issubclass c d = false)
    ∧ (∀ cls : PyClass,
        (∃ p ∈ factoryClasses, isinstance cls p.2 = true) →
        (factoryClasses.filter (fun q => isinstance cls q.2)).length = 1)
    ∧ (∀ (cls : PyClass) (l : List (String × PyClass)),
        l.Perm factoryClasses →
        (l.find? (fun q => isinstance cls q.2)).map Prod.fst =
          (factoryClasses.find? (fun q => isinstance cls q.2)).map
            Prod.fst) := by
  refine ⟨by decide, fun cls => by cases cls <;> decide, ?_⟩
  intro cls l hperm
  cases cls
  case nnModule =>
    have hf : factoryClasses.filter
        (fun q => isinstance PyClass.nnModule q.2) = [] := by decide
    rw [find?_of_perm_nil _ hperm hf, find?_of_perm_nil _ (List.Perm.refl _) hf]
  case classificationLoss =>
    have hf : factoryClasses.filter
        (fun q => isinstance PyClass.classificationLoss q.2) = [] := by decide
    rw [find?_of_perm_nil _ hperm hf, find?_of_perm_nil _ (List.Perm.refl _) hf]
  case linearClassifier =>
    have hf : factoryClasses.filter
        (fun q => isinstance PyClass.linearClassifier q.2) =
        [("linear", PyClass.linearClassifier)] := by decide
    rw [find?_of_perm_singleton _ hperm hf,
      find?_of_perm_singleton _ (List.Perm.refl _) hf]
  case mlpClassifier =>
    have hf : factoryClasses.filter
        (fun q => isinstance PyClass.mlpClassifier q.2) =
        [("mlp", PyClass.mlpClassifier)] := by decide
    rw [find?_of_perm_singleton _ hperm hf,
      find?_of_perm_singleton _ (List.Perm.refl _) hf]
  case mlpClassifierDeep =>
    have hf : factoryClasses.filter
        (fun q => isinstance PyClass.mlpClassifierDeep q.2) =
        [("mlp_deep", PyClass.mlpClassifierDeep)] := by decide
    rw [find?_of_perm_singleton _ hperm hf,
      find?_of_perm_singleton _ (List.Perm.refl _) hf]
  case mlpClassifierDeepResidual =>
    have hf : factoryClasses.filter
        (fun q => isinstance PyClass.mlpClassifierDeepResidual q.2) =
        [("mlp_deep_residual", PyClass.mlpClassifierDeepResidual)] := by decide
    rw [find?_of_perm_singleton _ hperm hf,
      find?_of_perm_singleton _ (List.Perm.refl _) hf]

/-- C10 witness: the reversed registry resolves the same name for an
`MLPClassifier` instance as the declared iteration order. -/
theorem c10_unique_dispatch_witness :
    (factoryClasses.reverse.find?
        (fun q => isinstance PyClass.mlpClassifier q.2)).map Prod.fst =
      (factoryClasses.find?
        (fun q => isinstance PyClass.mlpClassifier q.2)).map Prod.fst :=
  c10_unique_dispatch.2.2 PyClass.mlpClassifier factoryClasses.reverse
    (List.reverse_perm _)

theorem Tensor.mapElem_shape (f : ℚ → ℚ) (t : Tensor) :
    (t.mapElem f).shape = t.shape := rfl

theorem seqForward_nil (g : ℚ → ℚ) (t : Tensor) :
    seqForward g [] t = some t := rfl

theorem seqForward_cons (g : ℚ → ℚ) (l : Layer) (ls : List Layer)
    (t : Tensor) :
    seqForward g (l :: ls) t = l.apply g t >>= seqForward g ls := rfl

/-- The feature-dimension bookkeeping of a `Sequential` stack applied to a
batched 2-D input: affine layers require their in-dimension and produce
their out-dimension, activations preserve it. -/
def seqOutDim : List Layer → ℕ → Option ℕ
  | [], d => some d
  | .linear l :: ls, d =>
      if d = l.inFeatures then seqOutDim ls l.outFeatures else none
  | .relu :: ls, d => seqOutDim ls d
  | .gelu :: ls, d => seqOutDim ls d

theorem LinearLayer.apply_shape (l : LinearLayer) {b : ℕ} {t : Tensor}
    (h : t.shape = [b, l.inFeatures]) :
    ∃ u, l.apply t = some u ∧ u.shape = [b, l.outFeatures] := by
  obtain ⟨s, d⟩ := t
  simp only at h
  subst h
  have happ : LinearLayer.apply l ⟨[b, l.inFeatures], d⟩ =
      some ⟨[b, l.outFeatures],
        (List.range b).flatMap (fun i =>
          (List.range l.outFeatures).map (fun j =>
            l.bias j + ((List.range l.inFeatures).map (fun k2 =>
              l.weight j k2 * d.getD (i * l.inFeatures + k2) 0)).sum))⟩ := by
    simp [LinearLayer.apply, List.getD]
  exact ⟨_, happ, rfl⟩

theorem seqForward_shape (g : ℚ → ℚ) :
    ∀ (ls : List Layer) (d e b : ℕ) (t : Tensor),
    seqOutDim ls d = some e → t.shape = [b, d] →
    ∃ u, seqForward g ls t = some u ∧ u.shape = [b, e] := by
  intro ls
  induction ls with
  | nil =>
    intro d e b t hd ht
    simp only [seqOutDim, Option.some.injEq] at hd
    exact ⟨t, rfl, hd ▸ ht⟩
  | cons l ls ih =>
    intro d e b t hd ht
    cases l with
    | linear ll =>
      simp only [seqOutDim] at hd
      split at hd
      case isTrue hdim =>
        subst hdim
        obtain ⟨u, hu, hsu⟩ := ll.apply_shape ht
        obtain ⟨v, hv, hsv⟩ := ih ll.outFeatures e b u hd hsu
        exact ⟨v, by rw [seqForward_cons]; simp [Layer.apply, hu, hv], hsv⟩
      case isFalse => exact absurd hd (by simp)
    | relu =>
      simp only [seqOutDim] at hd
      obtain ⟨v, hv, hsv⟩ := ih d e b (t.mapElem reluQ) hd
        (by rw [Tensor.mapElem_shape]; exact ht)
      exact ⟨v, by rw [seqForward_cons]; simp [Layer.apply, hv], hsv⟩
    | gelu =>
      simp only [seqOutDim] at hd
      obtain ⟨v, hv, hsv⟩ := ih d e b (t.mapElem g) hd
        (by rw [Tensor.mapElem_shape]; exact ht)
      exact ⟨v, by rw [seqForward_cons]; simp [Layer.apply, hv], hsv⟩

theorem seqOutDim_mlp (env : WeightEnv) :
    seqOutDim (MLPClassifier.init env 64 64 6).mlp 12288 = some 6 := rfl

theorem seqOutDim_deep (env : WeightEnv) :
    seqOutDim (MLPClassifierDeep.init env 64 64 6).mlp 12288 = some 6 := rfl

theorem Tensor.add_shape {o t : Tensor} (h : o.shape = t.shape) :
    Tensor.add o t =
      some ⟨o.shape, (o.data.zip t.data).map (fun p => p.1 + p.2)⟩ := by
  unfold Tensor.add
  rw [if_pos h]

theorem residual_fold_shape (g : ℚ → ℚ) (dd : ℕ) :
    ∀ (blocks : List (List Layer)),
    (∀ blk ∈ blocks, seqOutDim blk dd = some dd) →
    ∀ (b : ℕ) (t : Tensor), t.shape = [b, dd] →
    ∃ u, (blocks.foldlM (fun out layer => do
        let o ← seqForward g layer out
        let s ← Tensor.add o out
        pure (s.mapElem reluQ)) t) = some u ∧ u.shape = [b, dd] := by
  intro blocks
  induction blocks with
  | nil => exact fun _ b t ht => ⟨t, rfl, ht⟩
  | cons blk rest ih =>
    intro hall b t ht
    obtain ⟨o, ho, hso⟩ :=
      seqForward_shape g blk dd dd b t (hall blk (List.mem_cons_self _ _)) ht
    have hadd := Tensor.add_shape (o := o) (t := t) (by rw [hso, ht])
    obtain ⟨u, hu, hsu⟩ :=
      ih (fun blk2 h2 => hall blk2 (List.mem_cons_of_mem _ h2)) b
        (Tensor.mapElem reluQ ⟨o.shape, (o.data.zip t.data).map (fun p => p.1 + p.2)⟩)
        (by rw [Tensor.mapElem_shape]; exact hso)
    refine ⟨u, ?_, hsu⟩
    rw [List.foldlM_cons]
    simp only [ho, Option.bind_eq_bind, Option.pure_def, Option.some_bind, hadd]
    exact hu

theorem seqOutDim_residual_blocks (env : WeightEnv) :
    ∀ blk ∈ (MLPClassifierDeepResidual.init env 64 64 6).hidden_layers,
      seqOutDim blk 180 = some 180 := by
  intro blk h
  simp only [MLPClassifierDeepResidual.init, List.mem_map,
    List.mem_range] at h
  obtain ⟨i, _, rfl⟩ := h
  rfl

theorem flatten_image_batch {b : ℕ} {x : Tensor}
    (hx : x.shape = [b, 3, 64, 64]) :
    x.flattenFromDim1 = some ⟨[b, 12288], x.data⟩ := by
  obtain ⟨s, d⟩ := x
  simp only at hx
  subst hx
  unfold Tensor.flattenFromDim1
  norm_num

theorem seq_model_forward_shape (g : ℚ → ℚ) (layers : List Layer)
    {e b : ℕ} {x : Tensor} (hx : x.shape = [b, 3, 64, 64])
    (hdim : seqOutDim layers 12288 = some e) :
    ∃ out, (x.flattenFromDim1 >>= seqForward g layers) = some out ∧
      out.shape = [b, e] := by
  rw [flatten_image_batch hx, Option.bind_eq_bind, Option.some_bind]
  exact seqForward_shape g layers 12288 e b ⟨[b, 12288], x.data⟩ hdim rfl

theorem someBind {α β : Type} (a : α) (f : α → Option β) :
    (some a >>= f) = f a := rfl

theorem residual_forward_shape (g : ℚ → ℚ) (env : WeightEnv) {b : ℕ}
    {x : Tensor} (hx : x.shape = [b, 3, 64, 64]) :
    ∃ out, MLPClassifierDeepResidual.forward g
        (MLPClassifierDeepResidual.init env 64 64 6) x = some out ∧
      out.shape = [b, 6] := by
  obtain ⟨h0, hh0, hsh0⟩ :=
    (MLPClassifierDeepResidual.init env 64 64 6).input_layer.apply_shape
      (b := b) (t := ⟨[b, 12288], x.data⟩)
      (by norm_num [MLPClassifierDeepResidual.init])
  obtain ⟨u, hu, hsu⟩ :=
    residual_fold_shape g 180
      (MLPClassifierDeepResidual.init env 64 64 6).hidden_layers
      (seqOutDim_residual_blocks env) b (h0.mapElem reluQ)
      (by rw [Tensor.mapElem_shape, hsh0]
          norm_num [MLPClassifierDeepResidual.init])
  obtain ⟨out, hout, hsout⟩ :=
    (MLPClassifierDeepResidual.init env 64 64 6).output_layer.apply_shape
      (b := b) (t := u) (by rw [hsu]; norm_num [MLPClassifierDeepResidual.init])
  refine ⟨out, ?_, by rw [hsout]; norm_num [MLPClassifierDeepResidual.init]⟩
  unfold MLPClassifierDeepResidual.forward
  rw [flatten_image_batch hx, someBind, hh0, someBind]
  show ((MLPClassifierDeepResidual.init env 64 64 6).hidden_layers.foldlM
      (fun out layer => do
        let o ← seqForward g layer out
        let s ← Tensor.add o out
        pure (s.mapElem reluQ)) (h0.mapElem reluQ)) >>=
      (MLPClassifierDeepResidual.init env 64 64 6).output_layer.apply
    = some out
  rw [hu, someBind]
  exact hout

/-- C1: for every registered name, `load_model` with default arguments
returns a model whose forward pass maps any batch of shape (b, 3, 64, 64)
with b ≥ 1 to logits of shape (b, 6). -/
theorem c1_forward_shape (g : ℚ → ℚ) (env : WeightEnv) (fs : LoadEnv) :
    ∀ p ∈ model_factory, ∀ b : ℕ, 1 ≤ b → ∀ x : Tensor,
    x.shape = [b, 3, 64, 64] →
    ∃ m out, load_model env fs p.1 false = Except.ok m ∧
      Model.forward g m x = some out ∧ out.shape = [b, 6] := by
  intro p hp b _ x hx
  simp only [model_factory, List.mem_cons, List.not_mem_nil, or_false] at hp
  rcases hp with rfl | rfl | rfl | rfl
  · obtain ⟨out, hout, hsout⟩ :=
      (LinearClassifier.init env 64 64 6).linear.apply_shape
        (b := b) (t := ⟨[b, 12288], x.data⟩)
        (by norm_num [LinearClassifier.init])
    refine ⟨linearCtor.make env, out,
      load_model_no_weights env fs _ _ find_name_linear
        (by rw [size_mb_linear]; norm_num),
      ?_, by rw [hsout]; norm_num [LinearClassifier.init]⟩
    show LinearClassifier.forward _ x = some out
    unfold LinearClassifier.forward
    rw [flatten_image_batch hx, someBind]
    exact hout
  · obtain ⟨out, hout, hsout⟩ :=
      seq_model_forward_shape g (MLPClassifier.init env 64 64 6).mlp hx
        (seqOutDim_mlp env)
    exact ⟨mlpCtor.make env, out,
      load_model_no_weights env fs _ _ find_name_mlp
        (by rw [size_mb_mlp]; norm_num), hout, hsout⟩
  · obtain ⟨out, hout, hsout⟩ :=
      seq_model_forward_shape g (MLPClassifierDeep.init env 64 64 6).mlp hx
        (seqOutDim_deep env)
    exact ⟨mlpDeepCtor.make env, out,
      load_model_no_weights env fs _ _ find_name_deep
        (by rw [size_mb_deep]; norm_num), hout, hsout⟩
  · obtain ⟨out, hout, hsout⟩ := residual_forward_shape g env hx
    exact ⟨mlpDeepResidualCtor.make env, out,
      load_model_no_weights env fs _ _ find_name_residual
        (by rw [size_mb_residual]; norm_num), hout, hsout⟩

/-- C1 witness: batch size 1 zero image through the first registry entry. -/
theorem c1_forward_shape_witness :
    ∃ m out,
      load_model zeroEnv emptyFs "linear" false = Except.ok m ∧
        Model.forward (fun q => q) m ⟨[1, 3, 64, 64], List.replicate 12288 0⟩ =
          some out ∧
        out.shape = [1, 6] :=
  c1_forward_shape (fun q => q) zeroEnv emptyFs ("linear", linearCtor)
    (List.Mem.head _) 1 (le_refl 1) ⟨[1, 3, 64, 64], List.replicate 12288 0⟩ rfl

/-- One residual block as the spec states it: `block(out)` is
affine(hidden→hidden) → rectifier → affine(hidden→hidden) with no
nonlinearity after the block's last affine, and the step returns
`rectifier(block(out) + out)` with the unmodified block input added back. -/
def residualBlockSpec (lin1 lin2 : LinearLayer) (out : Tensor) :
    Option Tensor := do
  let o1 ← lin1.apply out
  let o2 ← lin2.apply (o1.mapElem reluQ)
  let s ← Tensor.add o2 out
  pure (s.mapElem reluQ)

/-- The residual variant's forward pass as §4.5 of the spec states it:
flatten, input affine then rectifier, `num_layers - 2 = 5` residual block
steps, and a final affine with no activation after it. -/
def residualForwardSpec (env : WeightEnv) (x : Tensor) :
    Option Tensor := do
  let xf ← x.flattenFromDim1
  let h0 ← (LinearLayer.mk (3 * 64 * 64) 180 (env.w 0) (env.b 0)).apply xf
  let out0 := h0.mapElem reluQ
  let outN ← (List.range 5).foldlM (fun out i =>
      residualBlockSpec
        ⟨180, 180, env.w (2 * i + 1), env.b (2 * i + 1)⟩
        ⟨180, 180, env.w (2 * i + 2), env.b (2 * i + 2)⟩ out) out0
  (LinearLayer.mk 180 6 (env.w 11) (env.b 11)).apply outN

theorem seqForward_block (g : ℚ → ℚ) (a c : LinearLayer) (t : Tensor) :
    seqForward g [.linear a, .relu, .linear c] t =
      (a.apply t).bind (fun o1 => c.apply (o1.mapElem reluQ)) := by
  cases h1 : a.apply t with
  | none => simp [seqForward, Layer.apply, h1]
  | some o1 =>
    cases h2 : c.apply (o1.mapElem reluQ) with
    | none => simp [seqForward, Layer.apply, h1, h2]
    | some o2 => simp [seqForward, Layer.apply, h1, h2]

theorem residual_step_spec (g : ℚ → ℚ) (a c : LinearLayer) (t : Tensor) :
    (do
      let o ← seqForward g [Layer.linear a, Layer.relu, Layer.linear c] t
      let s ← Tensor.add o t
      pure (s.mapElem reluQ)) = residualBlockSpec a c t := by
  rw [seqForward_block]
  unfold residualBlockSpec
  cases h1 : a.apply t with
  | none => rfl
  | some o1 =>
    cases h2 : c.apply (o1.mapElem reluQ) with
    | none => simp [h1, h2]
    | some o2 => simp [h1, h2]

theorem residual_fold_spec (g : ℚ → ℚ) (L1 L2 : ℕ → LinearLayer) :
    ∀ (idxs : List ℕ) (t : Tensor),
    ((idxs.map (fun i =>
        [Layer.linear (L1 i), Layer.relu, Layer.linear (L2 i)])).foldlM
      (fun out layer => do
        let o ← seqForward g layer out
        let s ← Tensor.add o out
        pure (s.mapElem reluQ)) t)
      = idxs.foldlM (fun out i => residualBlockSpec (L1 i) (L2 i) out) t := by
  intro idxs
  induction idxs with
  | nil => intro t; rfl
  | cons i rest ih =>
    intro t
    simp only [List.map_cons, List.foldlM_cons]
    rw [residual_step_spec g (L1 i) (L2 i) t]
    cases residualBlockSpec (L1 i) (L2 i) t with
    | none => rfl
    | some t2 => rw [someBind, someBind]; exact ih t2

/-- C2: the residual variant's forward pass coincides with the spec's
description: hidden state updated by `out = rectifier(block(out) + out)`
for each of the 5 blocks, then one final affine with no activation. -/
theorem c2_residual_matches_spec (g : ℚ → ℚ) (env : WeightEnv) (x : Tensor) :
    MLPClassifierDeepResidual.forward g
        (MLPClassifierDeepResidual.init env 64 64 6) x =
      residualForwardSpec env x := by
  simp only [MLPClassifierDeepResidual.forward, MLPClassifierDeepResidual.init,
    residualForwardSpec]
  cases hxf : x.flattenFromDim1 with
  | none => rfl
  | some xf =>
    rw [someBind, someBind]
    cases happ : (LinearLayer.mk (3 * 64 * 64) 180 (env.w 0) (env.b 0)).apply xf with
    | none => simp [happ]
    | some h0 =>
      simp only [happ, someBind]
      rw [show (7 - 2 : ℕ) = 5 from rfl, show (2 * 7 - 3 : ℕ) = 11 from rfl]
      rw [residual_fold_spec g
        (fun i => ⟨180, 180, env.w (2 * i + 1), env.b (2 * i + 1)⟩)
        (fun i => ⟨180, 180, env.w (2 * i + 2), env.b (2 * i + 2)⟩)
        (List.range 5) (h0.mapElem reluQ)]

/-- The deep variant's forward pass as §4.4 of the spec states it: flatten,
affine(3·64·64 → 170), the smooth gated nonlinearity, `num_layers - 2 = 14`
repetitions of affine(170 → 170) followed by a plain rectifier, then a
final affine(170 → 6) with no activation. -/
def deepForwardSpec (g : ℚ → ℚ) (env : WeightEnv) (x : Tensor) :
    Option Tensor := do
  let xf ← x.flattenFromDim1
  let h0 ← (LinearLayer.mk (3 * 64 * 64) 170 (env.w 0) (env.b 0)).apply xf
  let h1 := h0.mapElem g
  let hk ← (List.range 14).foldlM (fun t i =>
      ((LinearLayer.mk 170 170 (env.w (i + 1)) (env.b (i + 1))).apply t).map
        (Tensor.mapElem reluQ)) h1
  (LinearLayer.mk 170 6 (env.w 15) (env.b 15)).apply hk

theorem seqForward_linrelu_pairs (g : ℚ → ℚ) (L : ℕ → LinearLayer) :
    ∀ (idxs : List ℕ) (t : Tensor),
    seqForward g (idxs.flatMap (fun i => [Layer.linear (L i), Layer.relu])) t
      = idxs.foldlM (fun t i =>
          ((L i).apply t).map (Tensor.mapElem reluQ)) t := by
  intro idxs
  induction idxs with
  | nil => intro t; rfl
  | cons i rest ih =>
    intro t
    rw [List.flatMap_cons, List.cons_append, List.cons_append,
      List.nil_append, seqForward_cons, List.foldlM_cons]
    cases h : (L i).apply t with
    | none => simp [Layer.apply, h]
    | some o => simp [Layer.apply, h, seqForward_cons, ih]

/-- C9: the deep variant's forward pass coincides with the spec's
description: flatten, affine then the smooth gated nonlinearity (used only
there), 14 affine-plus-rectifier repetitions, and a final affine with no
activation after it. -/
theorem seqForward_append (g : ℚ → ℚ) (l1 l2 : List Layer) (t : Tensor) :
    seqForward g (l1 ++ l2) t = seqForward g l1 t >>= seqForward g l2 := by
  simp [seqForward, List.foldlM_append]

theorem c9_deep_matches_spec (g : ℚ → ℚ) (env : WeightEnv) (x : Tensor) :
    MLPClassifierDeep.forward g (MLPClassifierDeep.init env 64 64 6) x =
      deepForwardSpec g env x := by
  simp only [MLPClassifierDeep.forward, MLPClassifierDeep.init,
    deepForwardSpec]
  cases hxf : x.flattenFromDim1 with
  | none => rfl
  | some xf =>
    rw [someBind, someBind,
      show (16 - 2 : ℕ) = 14 from rfl, show (16 - 1 : ℕ) = 15 from rfl,
      seqForward_append, seqForward_append, seqForward_cons]
    cases happ :
        (LinearLayer.mk (3 * 64 * 64) 170 (env.w 0) (env.b 0)).apply xf with
    | none => simp [Layer.apply, happ]
    | some h0 =>
      simp only [Layer.apply, happ, someBind, seqForward_cons, seqForward_nil]
      rw [seqForward_linrelu_pairs g
          (fun i => ⟨170, 170, env.w (i + 1), env.b (i + 1)⟩) (List.range 14)]
      cases hfold : (List.range 14).foldlM (fun t i =>
          ((LinearLayer.mk 170 170 (env.w (i + 1)) (env.b (i + 1))).apply t).map
            (Tensor.mapElem reluQ)) (Tensor.mapElem g h0) with
      | none => rfl
      | some hk =>
        rw [someBind, seqForward_cons]
        cases hlast :
            (LinearLayer.mk 170 6 (env.w 15) (env.b 15)).apply hk with
        | none => simp [Layer.apply, hlast]
        | some out => simp [Layer.apply, hlast, seqForward_nil]
